import Mathlib

/-!
Verification development for the Spectra synthetic filesystem simulator.

This file gives a shallow embedding of the core of the repository:
the procedural tree generator (`internal/generator`), the BoltDB-backed
node store (`internal/db/db.go`), and the materialization orchestrator
(`internal/spectrafs/spectrafs.go`), together with theorems about the
claims of the specification.

Modelling conventions:
- Go strings are Lean `String`s; the byte-wise Go string comparison is
  re-implemented over the character list so that it evaluates in the kernel.
- Go `map[string]bool` / `map[string]float64` values are association lists;
  a missing key reads as the zero value (`false`), as in Go. Iteration
  order of a configuration map is fixed to its list order.
- `math/rand` (seeded by `NewRNG`) is not part of the repository; it is
  modelled by a deterministic stand-in: draw number `c` from seed `s` is
  `mix s c`. `Float64` values in `[0,1)` and the configured probabilities
  in `[0,1]` are represented in fixed point with denominator `probDen`,
  so a uniform roll is a `Nat` below `probDen` and `roll <= p` is the
  `Nat` comparison. `uuid.New` (crypto-random, process global) is
  modelled by a fresh-name generator threaded through the code, and
  `time.Now()` by the constant 0: no claim inspects ids beyond fresh
  uniqueness, or timestamps.
- BoltDB buckets are association lists with unique keys: `Put` replaces
  the binding of an existing key, `Get` reads the first binding,
  `Delete` removes the key. Each store operation runs inside one
  transaction under one store-wide mutex, so an operation is a total
  function from store to store; bucket-missing errors cannot occur after
  initialization and are not modelled.
-/

set_option maxRecDepth 4000

/-- Length of a string as its character count. -/
def strLen (s : String) : Nat := s.toList.length

/-- Take the first `n` characters of a string (Go `s[:n]` on ASCII data). -/
def strTake (s : String) (n : Nat) : String := ⟨s.toList.take n⟩

/-- Drop the first `n` characters of a string (Go `s[n:]` on ASCII data). -/
def strDrop (s : String) (n : Nat) : String := ⟨s.toList.drop n⟩

/-- Go prefix test `string(key[:len(pre)]) == pre` used by the index scans. -/
def strStartsWith (s pre : String) : Bool := strTake s (strLen pre) = pre

/-- Lexicographic byte-wise comparison of character lists, as Go `<` on strings. -/
def charListLt : List Char → List Char → Bool
  | [], [] => false
  | [], _ :: _ => true
  | _ :: _, [] => false
  | a :: as, b :: bs =>
    if a.toNat < b.toNat then true
    else if b.toNat < a.toNat then false
    else charListLt as bs

/-- Go string comparison `a < b`. -/
def strLtB (a b : String) : Bool := charListLt a.toList b.toList

/-- Path join used by the generator (`filepath.Join(parent.Path, name)`) and by
the orchestrator's create operations, restricted to the slash-normalized paths
the system produces: the root path is `/` and every other path is
`parent.path ++ "/" ++ name`. -/
def joinPath (p n : String) : String := if p = "/" then "/" ++ n else p ++ "/" ++ n

/-- Fixed-point denominator for probabilities and uniform draws: a probability
`p ∈ [0,1]` is the numerator `p * probDen`, a uniform draw in `[0,1)` is a
numerator below `probDen`. -/
def probDen : Nat := 65536

/-- Modelled from the spec: deterministic stand-in for the `math/rand` source
(Go standard library, not part of the repository). Draw number `c` from seed
`s`, a value below `probDen`. -/
def mix (seed : Int) (c : Nat) : Nat :=
  (seed.natAbs * 2654435761 + c * 2246822519 + 3266489917) % probDen

/-- Seeded random source: the wrapped `math/rand.Rand` of `NewRNG`, represented
by its seed and the number of draws consumed so far. -/
structure RNG where
  seed : Int
  ctr : Nat
deriving DecidableEq, Repr

/-- NewRNG creates a new seeded random number generator. -/
def NewRNG (seed : Int) : RNG := { seed := seed, ctr := 0 }

/-- Go `rng.Intn(n)`: a uniform value in `[0,n)`; consumes one draw. The caller
guarantees `0 < n` (Go panics otherwise; the panic case is modelled at the call
site in `GenerateChildren`). -/
def rngIntn (r : RNG) (n : Nat) : Nat × RNG :=
  (mix r.seed r.ctr % n, { r with ctr := r.ctr + 1 })

/-- Go `rng.Float64()`: a uniform value in `[0,1)` in fixed point; consumes one
draw. -/
def rngFloat64 (r : RNG) : Nat × RNG :=
  (mix r.seed r.ctr, { r with ctr := r.ctr + 1 })

/-- Modelled from the spec: stand-in for `uuid.New().String()` (external
library, process-global randomness). A tag distinguishes independent
generator instances; the counter makes every produced id fresh. -/
structure UuidGen where
  tag : String
  ctr : Nat
deriving DecidableEq, Repr

/-- Produce the next fresh id. -/
def uuidNew (u : UuidGen) : String × UuidGen :=
  (u.tag ++ "-" ++ toString u.ctr, { u with ctr := u.ctr + 1 })

/-- Generation state threaded through the orchestrator: the seeded source
(`SpectraFS.rng`) plus the uuid source. -/
structure Gen where
  rng : RNG
  uuid : UuidGen
deriving DecidableEq, Repr

/-- Node of `internal/types`: the sole entity of the data model. `existenceMap`
is `map[string]bool` as an association list; `lastUpdated` is the modelled
timestamp. -/
structure Node where
  id : String
  parentId : String
  name : String
  path : String
  parentPath : String
  typ : String
  depthLevel : Int
  size : Int
  lastUpdated : Nat
  checksum : Option String
  existenceMap : List (String × Bool)
deriving DecidableEq, Repr

/-- Go map read `m[world]`: first binding, `false` when absent. -/
def emGet (m : List (String × Bool)) (k : String) : Bool :=
  match m with
  | [] => false
  | (k', v) :: rest => if k' = k then v else emGet rest k

/-- Configuration of `internal/types` (`Seed` section flattened in);
`secondaryTables` maps world name to fixed-point probability. -/
structure Config where
  maxDepth : Int
  minFolders : Int
  maxFolders : Int
  minFiles : Int
  maxFiles : Int
  seed : Int
  secondaryTables : List (String × Nat)
deriving DecidableEq, Repr

/-- ComputeChecksum of `internal/generator/checksum.go`; SHA-256 (standard
library) is modelled by a cheap deterministic digest. -/
def ComputeChecksum (data : List Nat) : String :=
  toString (data.foldl (fun a b => (a * 131 + b) % 1000000007) 7)

/-- GenerateFileData: 1KB of random bytes (1024 `Intn(256)` draws) plus its
checksum. -/
def GenerateFileData (r : RNG) : List Nat × String × RNG :=
  let data := (List.range 1024).map (fun i => mix r.seed (r.ctr + i) % 256)
  (data, ComputeChecksum data, { r with ctr := r.ctr + 1024 })

/-- Existence roll loop of `generateFolder` / `generateFile`: for each
configured secondary world draw `roll := rng.Float64()` and add the binding
`world ↦ true` exactly when `roll <= probability`; absent bindings read as
`false`. The parent node is not consulted. -/
def rollWorlds : List (String × Nat) → RNG → List (String × Bool) × RNG
  | [], r => ([], r)
  | (w, p) :: rest, r =>
    let roll := (rngFloat64 r).1
    let r' := (rngFloat64 r).2
    let m := rollWorlds rest r'
    (if roll ≤ p then (w, true) :: m.1 else m.1, m.2)

/-- generateFolder of `internal/generator`: a folder child named
`folder_<index>` with a fresh id, existence map `primary ↦ true` plus the
secondary rolls, size 0 and no checksum. -/
def generateFolder (parent : Node) (index : Nat) (depth : Int) (cfg : Config)
    (r : RNG) (u : UuidGen) : Node × RNG × UuidGen :=
  let name := "folder_" ++ toString index
  let path := joinPath parent.path name
  let nodeID := (uuidNew u).1
  let u' := (uuidNew u).2
  let rolled := rollWorlds cfg.secondaryTables r
  ({ id := nodeID, parentId := parent.id, name := name, path := path,
     parentPath := "", typ := "folder", depthLevel := depth, size := 0,
     lastUpdated := 0, checksum := none,
     existenceMap := ("primary", true) :: rolled.1 }, rolled.2, u')

/-- generateFile of `internal/generator`: a file child named
`file_<index>.txt` with a fresh id, generated 1KB content checksum, existence
map `primary ↦ true` plus the secondary rolls, size 1024. -/
def generateFile (parent : Node) (index : Nat) (depth : Int) (cfg : Config)
    (r : RNG) (u : UuidGen) : Node × RNG × UuidGen :=
  let name := "file_" ++ toString index ++ ".txt"
  let path := joinPath parent.path name
  let nodeID := (uuidNew u).1
  let u' := (uuidNew u).2
  let fd := GenerateFileData r
  let rolled := rollWorlds cfg.secondaryTables fd.2.2
  ({ id := nodeID, parentId := parent.id, name := name, path := path,
     parentPath := "", typ := "file", depthLevel := depth, size := 1024,
     lastUpdated := 0, checksum := some fd.2.1,
     existenceMap := ("primary", true) :: rolled.1 }, rolled.2, u')

/-- Folder pass of `GenerateChildren`: `count` folders with indexes starting
at `i + 1`. -/
def genFolderList (parent : Node) (depth : Int) (cfg : Config) :
    Nat → Nat → RNG → UuidGen → List Node × RNG × UuidGen
  | 0, _, r, u => ([], r, u)
  | Nat.succ k, i, r, u =>
    let f := generateFolder parent (i + 1) depth cfg r u
    let rest := genFolderList parent depth cfg k (i + 1) f.2.1 f.2.2
    (f.1 :: rest.1, rest.2)

/-- File pass of `GenerateChildren`: `count` files with indexes starting at
`i + 1`. -/
def genFileList (parent : Node) (depth : Int) (cfg : Config) :
    Nat → Nat → RNG → UuidGen → List Node × RNG × UuidGen
  | 0, _, r, u => ([], r, u)
  | Nat.succ k, i, r, u =>
    let f := generateFile parent (i + 1) depth cfg r u
    let rest := genFileList parent depth cfg k (i + 1) f.2.1 f.2.2
    (f.1 :: rest.1, rest.2)

/-- GenerateChildren of `internal/generator`: nil-configuration check, then the
`depth >= max_depth` cutoff, then the folder pass followed by the file pass,
drawing each count uniformly from its configured range. A non-positive
`Intn` bound (possible when `max < min`) is a Go panic, modelled as an error. -/
def GenerateChildren (parent : Node) (depth : Int) (g : Gen)
    (cfg : Option Config) : Except String (List Node × Gen) :=
  match cfg with
  | none => .error "configuration cannot be nil"
  | some c =>
    if depth ≥ c.maxDepth then .ok ([], g)
    else
      let folderSpan := c.maxFolders - c.minFolders + 1
      if folderSpan ≤ 0 then .error "panic: Intn with non-positive bound"
      else
        let fc := rngIntn g.rng folderSpan.toNat
        let folderCount : Int := (fc.1 : Int) + c.minFolders
        let folders := genFolderList parent (depth + 1) c folderCount.toNat 0 fc.2 g.uuid
        let fileSpan := c.maxFiles - c.minFiles + 1
        if fileSpan ≤ 0 then .error "panic: Intn with non-positive bound"
        else
          let flc := rngIntn folders.2.1 fileSpan.toNat
          let fileCount : Int := (flc.1 : Int) + c.minFiles
          let files := genFileList parent (depth + 1) c fileCount.toNat 0 flc.2 folders.2.2
          .ok (folders.1 ++ files.1, { rng := files.2.1, uuid := files.2.2 })

/-- BoltDB bucket `Put` on a key-value bucket: replace the binding of an
existing key, else append a new binding. -/
def bPut {α : Type} (b : List (String × α)) (k : String) (v : α) : List (String × α) :=
  match b with
  | [] => [(k, v)]
  | (k', v') :: rest => if k' = k then (k, v) :: rest else (k', v') :: bPut rest k v

/-- BoltDB bucket `Get`: the binding of the key, `nil` when absent. -/
def bGet {α : Type} (b : List (String × α)) (k : String) : Option α :=
  match b with
  | [] => none
  | (k', v) :: rest => if k' = k then some v else bGet rest k

/-- BoltDB bucket `Delete`: remove the key's binding. -/
def bDel {α : Type} (b : List (String × α)) (k : String) : List (String × α) :=
  b.filter (fun kv => kv.1 ≠ k)

/-- Key-only bucket `Put` (the two adjacency indexes store empty values):
ensure the key is present. -/
def sAdd (b : List String) (k : String) : List String :=
  if k ∈ b then b else b ++ [k]

/-- Key-only bucket `Delete`. -/
def sDel (b : List String) (k : String) : List String :=
  b.filter (fun k' => k' ≠ k)

/-- The node store of `internal/db/db.go`: the `nodes` bucket plus the three
synthetic indexes (`index_parent_id`, `index_path`, `index_parent_path`).
JSON (de)serialization of records is the identity in the model. -/
structure Store where
  nodes : List (String × Node)
  idxParentId : List String
  idxPath : List (String × String)
  idxParentPath : List String
deriving DecidableEq, Repr

/-- Write one node and its three index entries inside a transaction: the common
body of `InsertNode`, `createRootNodeInternal`, `CreateRootNode` and the loop
body of `BulkInsertNodes`. -/
def storePut (s : Store) (n : Node) : Store :=
  { nodes := bPut s.nodes n.id n,
    idxParentId := sAdd s.idxParentId (n.parentId ++ "|" ++ n.id),
    idxPath := bPut s.idxPath n.path n.id,
    idxParentPath := sAdd s.idxParentPath (n.parentPath ++ "|" ++ n.id) }

/-- Root node created by `createRootNodeInternal` / `CreateRootNode`: fixed id
`root`, path `/`, depth 0, existence `true` in the primary world and in every
configured secondary world. -/
def rootNodeFor (secondaries : List String) : Node :=
  { id := "root", parentId := "", name := "root", path := "/", parentPath := "",
    typ := "folder", depthLevel := 0, size := 0, lastUpdated := 0,
    checksum := none,
    existenceMap := ("primary", true) :: secondaries.map (fun w => (w, true)) }

/-- Fresh database as produced by `db.New` via `VerifyAndInitialize`: empty
buckets plus the root node. -/
def initStore (secondaries : List String) : Store :=
  storePut { nodes := [], idxParentId := [], idxPath := [], idxParentPath := [] }
    (rootNodeFor secondaries)

/-- InsertNode of `internal/db/db.go`: marshal the node, `Put` it into the
`nodes` bucket and update the three indexes, all in one transaction. The
source performs no duplicate-id check: an existing record with the same id is
overwritten. -/
def InsertNode (s : Store) (n : Node) : Store := storePut s n

/-- GetNodeByID: the record stored under `id`, or NotFound (`none`). -/
def GetNodeByID (s : Store) (id : String) : Option Node := bGet s.nodes id

/-- Child scan shared by `GetChildrenByParentID` and `GetParentAndChildren`:
iterate the `index_parent_id` keys with prefix `parentID ++ "|"`, load each
referenced node (skipping dangling keys), and keep those existing in `world`. -/
def childScan (s : Store) (parentID world : String) : List Node :=
  let pre := parentID ++ "|"
  ((s.idxParentId.filter (fun k => strStartsWith k pre)).filterMap
      (fun k => bGet s.nodes (strDrop k (strLen pre)))).filter
    (fun n => emGet n.existenceMap world)

/-- Comparator of `GetChildrenByParentID`'s `sort.Slice`: by `Type` (Go string
comparison), then by `Name`. -/
def childLess (a b : Node) : Bool :=
  if a.typ ≠ b.typ then strLtB a.typ b.typ else strLtB a.name b.name

/-- Insert into a list sorted by `less`. -/
def insertByLess {α : Type} (less : α → α → Bool) (x : α) : List α → List α
  | [] => [x]
  | y :: ys => if less x y then x :: y :: ys else y :: insertByLess less x ys

/-- Sort by a boolean comparator (the model of `sort.Slice`). -/
def sortByLess {α : Type} (less : α → α → Bool) : List α → List α
  | [] => []
  | x :: xs => insertByLess less x (sortByLess less xs)

/-- GetChildrenByParentID of `internal/db/db.go`: prefix scan of the adjacency
index, world filter, then `sort.Slice` by (type, name). -/
def GetChildrenByParentID (s : Store) (parentID world : String) : List Node :=
  sortByLess childLess (childScan s parentID world)

/-- Comparator of `GetParentAndChildren`'s `sort.Slice`: the parent record
first, then by (type, name). -/
def gpacLess (parentID : String) (a b : Node) : Bool :=
  if a.id = parentID && !(b.id = parentID) then true
  else if !(a.id = parentID) && b.id = parentID then false
  else childLess a b

/-- GetParentAndChildren of `internal/db/db.go`: the parent record (when it
exists in `world`) plus the world-filtered children, sorted with the parent
first. -/
def GetParentAndChildren (s : Store) (parentID world : String) : List Node :=
  let parentPart :=
    match bGet s.nodes parentID with
    | some p => if emGet p.existenceMap world then [p] else []
    | none => []
  sortByLess (gpacLess parentID) (parentPart ++ childScan s parentID world)

/-- UpdateExistenceMap of `internal/db/db.go`: replace the stored node's
existence map wholesale with the supplied map; NotFound (`none`) when the id
is absent. No constraint is imposed on the supplied map. -/
def UpdateExistenceMap (s : Store) (id : String) (m : List (String × Bool)) :
    Option Store :=
  match bGet s.nodes id with
  | none => none
  | some n => some { s with nodes := bPut s.nodes id { n with existenceMap := m } }

/-- CreateRootNode of `internal/db/db.go`: idempotent; create the root record
and its index entries only when no record with id `root` exists. -/
def CreateRootNode (s : Store) (secondaries : List String) : Store :=
  match bGet s.nodes "root" with
  | some _ => s
  | none => storePut s (rootNodeFor secondaries)

/-- DbDeleteNode: `DeleteNode` of `internal/db/db.go`; remove the record and
its three index entries in one transaction, NotFound (`none`) when absent. -/
def DbDeleteNode (s : Store) (id : String) : Option Store :=
  match bGet s.nodes id with
  | none => none
  | some n =>
    some { nodes := bDel s.nodes id,
           idxParentId := sDel s.idxParentId (n.parentId ++ "|" ++ n.id),
           idxPath := bDel s.idxPath n.path,
           idxParentPath := sDel s.idxParentPath (n.parentPath ++ "|" ++ n.id) }

/-- BulkInsertNodes of `internal/db/db.go`: insert the batch in one
transaction, silently skipping every record whose id already exists
(INSERT OR IGNORE behavior); never an error. -/
def BulkInsertNodes (s : Store) : List Node → Store
  | [] => s
  | n :: rest =>
    if (bGet s.nodes n.id).isSome then BulkInsertNodes s rest
    else BulkInsertNodes (storePut s n) rest

/-- GetNodeByPath of `internal/db/db.go`: resolve the path index to an id,
load the record, and (when `world` is non-empty) require existence in
`world`; NotFound (`none`) otherwise. -/
def GetNodeByPath (s : Store) (path world : String) : Option Node :=
  match bGet s.idxPath path with
  | none => none
  | some id =>
    match bGet s.nodes id with
    | none => none
    | some n => if world ≠ "" && !emGet n.existenceMap world then none else some n

/-- Request shape implementing only `ParentIdentifier`
(`models.ListChildrenRequest` and kin). -/
structure ParentReq where
  parentId : String
  parentPath : String
  tableName : String
deriving DecidableEq, Repr

/-- Request shape implementing only `NodeIdentifier`
(`models.GetNodeRequest`, `models.DeleteNodeRequest`). -/
structure NodeReq where
  id : String
  path : String
  tableName : String
deriving DecidableEq, Repr

/-- ValidateParentIdentifier: `ParentID` non-empty, or both `ParentPath` and
`TableName` non-empty. -/
def ValidateParentIdentifier (req : ParentReq) : Bool :=
  req.parentId ≠ "" || (req.parentPath ≠ "" && req.tableName ≠ "")

/-- ValidateNodeIdentifier: `ID` non-empty, or both `Path` and `TableName`
non-empty. -/
def ValidateNodeIdentifier (req : NodeReq) : Bool :=
  req.id ≠ "" || (req.path ≠ "" && req.tableName ≠ "")

/-- ParentIdentifier branch of `resolveNodeAndWorld`: the world is `TableName`
(defaulting to `primary` when empty); the node is looked up by id when
`ParentID` is non-empty, else by path in the world, else the call errors.
`none` models any resolution error (NotFound or missing addressing). -/
def resolveParentReq (s : Store) (req : ParentReq) : Option (Node × String) :=
  let world := if req.tableName = "" then "primary" else req.tableName
  if req.parentId ≠ "" then (GetNodeByID s req.parentId).map (fun n => (n, world))
  else if req.parentPath ≠ "" then
    (GetNodeByPath s req.parentPath world).map (fun n => (n, world))
  else none

/-- NodeIdentifier branch of `resolveNodeAndWorld`, for `GetNode` and
`DeleteNode` shaped requests. -/
def resolveNodeReq (s : Store) (req : NodeReq) : Option (Node × String) :=
  let world := if req.tableName = "" then "primary" else req.tableName
  if req.id ≠ "" then (GetNodeByID s req.id).map (fun n => (n, world))
  else if req.path ≠ "" then
    (GetNodeByPath s req.path world).map (fun n => (n, world))
  else none

/-- ListResult of `internal/types`; the `Folder` / `File` wrappers are
flattened to their nodes. A `nil` Go slice is the empty list. -/
structure ListResult where
  success : Bool
  message : String
  folders : List Node
  files : List Node
deriving DecidableEq, Repr

/-- ListChildren of `internal/spectrafs/spectrafs.go`. Validates the request,
resolves parent and world, short-circuits (successfully) when the parent does
not exist in the world, fetches parent and children in one query, generates and
bulk-inserts children when the world-filtered child list is empty, filters the
generated children by the world, and partitions folders before files. The Go
function returns a `nil` error on every path; failures are reported in the
result's `success` flag. -/
def ListChildren (s : Store) (g : Gen) (cfg : Config) (req : ParentReq) :
    ListResult × Store × Gen :=
  if !ValidateParentIdentifier req then
    ({ success := false, message := "invalid request", folders := [], files := [] }, s, g)
  else
    match resolveParentReq s req with
    | none =>
      ({ success := false, message := "Parent node not found", folders := [], files := [] }, s, g)
    | some (parent, world) =>
      if !emGet parent.existenceMap world then
        ({ success := true, message := "Node does not exist in world " ++ world,
           folders := [], files := [] }, s, g)
      else
        let nodes := GetParentAndChildren s parent.id world
        let children := nodes.drop 1
        if children.isEmpty then
          match GenerateChildren parent parent.depthLevel g (some cfg) with
          | .error e =>
            ({ success := false, message := "Failed to generate children: " ++ e,
               folders := [], files := [] }, s, g)
          | .ok (generated, g') =>
            let s' := BulkInsertNodes s generated
            let kept := generated.filter (fun n => emGet n.existenceMap world)
            ({ success := true, message := "Children retrieved successfully",
               folders := kept.filter (fun n => n.typ = "folder"),
               files := kept.filter (fun n => n.typ = "file") }, s', g')
        else
          ({ success := true, message := "Children retrieved successfully",
             folders := children.filter (fun n => n.typ = "folder"),
             files := children.filter (fun n => n.typ = "file") }, s, g)

/-- CreateFolder of `internal/spectrafs/spectrafs.go`: validate, resolve the
parent, require a folder parent, build the new node (existence `primary ↦
true` plus fresh secondary rolls) and insert it. -/
def CreateFolder (s : Store) (g : Gen) (cfg : Config) (req : ParentReq)
    (name : String) : Except String (Node × Store × Gen) :=
  if !ValidateParentIdentifier req then .error "invalid request"
  else if name = "" then .error "name is required"
  else
    match resolveParentReq s req with
    | none => .error "failed to get parent node"
    | some (parent, _) =>
      if parent.typ ≠ "folder" then .error "parent is not a folder"
      else
        let nodeID := (uuidNew g.uuid).1
        let u' := (uuidNew g.uuid).2
        let path := if parent.path = "/" then "/" ++ name else parent.path ++ "/" ++ name
        let rolled := rollWorlds cfg.secondaryTables g.rng
        let folderNode : Node :=
          { id := nodeID, parentId := parent.id, name := name, path := path,
            parentPath := parent.path, typ := "folder",
            depthLevel := parent.depthLevel + 1, size := 0, lastUpdated := 0,
            checksum := none,
            existenceMap := ("primary", true) :: rolled.1 }
        .ok (folderNode, InsertNode s folderNode, { rng := rolled.2, uuid := u' })

/-- UploadFile of `internal/spectrafs/spectrafs.go`: validate (name and data
required), resolve the parent, require a folder parent, generate a checksum
from fresh 1KB content (the uploaded bytes are ignored), build the new node
(existence `primary ↦ true` plus fresh secondary rolls) and insert it. -/
def UploadFile (s : Store) (g : Gen) (cfg : Config) (req : ParentReq)
    (name : String) (data : List Nat) : Except String (Node × Store × Gen) :=
  if !ValidateParentIdentifier req then .error "invalid request"
  else if name = "" then .error "name is required"
  else if data.isEmpty then .error "data is required"
  else
    match resolveParentReq s req with
    | none => .error "failed to get parent node"
    | some (parent, _) =>
      if parent.typ ≠ "folder" then .error "parent is not a folder"
      else
        let nodeID := (uuidNew g.uuid).1
        let u' := (uuidNew g.uuid).2
        let path := parent.path ++ "/" ++ name
        let fd := GenerateFileData g.rng
        let rolled := rollWorlds cfg.secondaryTables fd.2.2
        let fileNode : Node :=
          { id := nodeID, parentId := parent.id, name := name, path := path,
            parentPath := parent.path, typ := "file",
            depthLevel := parent.depthLevel + 1, size := 1024, lastUpdated := 0,
            checksum := some fd.2.1,
            existenceMap := ("primary", true) :: rolled.1 }
        .ok (fileNode, InsertNode s fileNode, { rng := rolled.2, uuid := u' })

/-- FsDeleteNode: `DeleteNode` of `internal/spectrafs/spectrafs.go`. Validate,
resolve the node, reject deletion of the root node, else delete through the
store. -/
def FsDeleteNode (s : Store) (req : NodeReq) : Except String Store :=
  if !ValidateNodeIdentifier req then .error "invalid request"
  else
    match resolveNodeReq s req with
    | none => .error "failed to resolve node"
    | some (node, _) =>
      if node.id = "root" then .error "cannot delete root node"
      else
        match DbDeleteNode s node.id with
        | none => .error "node not found"
        | some s' => .ok s'

/-- Signature of a generated child for the determinism contract: its name and
kind; order is carried by the list structure. -/
def nodeSig (n : Node) : String × String := (n.name, n.typ)

/-- Run a sequence of structurally identical generator invocations, threading
the generation state, as the determinism contract quantifies over. -/
def runSeq : List (Node × Int) → Gen → Option Config →
    Except String (List (List Node) × Gen)
  | [], g, _ => .ok ([], g)
  | (p, d) :: rest, g, cfg =>
    match GenerateChildren p d g cfg with
    | .error e => .error e
    | .ok (cs, g') =>
      match runSeq rest g' cfg with
      | .error e => .error e
      | .ok (css, g'') => .ok (cs :: css, g'')

/-- Name/kind/order signatures of every invocation of a run. -/
def runSigs (invs : List (Node × Int)) (g : Gen) (cfg : Option Config) :
    Except String (List (List (String × String))) :=
  (runSeq invs g cfg).map (fun x => x.1.map (fun cs => cs.map nodeSig))

/-- Folder sublist of one generator invocation's output. -/
def foldersOf (res : Except String (List Node × Gen)) : Except String (List Node) :=
  res.map (fun x => x.1.filter (fun n => n.typ = "folder"))

/-- Configuration of the two-call materialization scenario: one child folder
and one child file per generation, one secondary world `s1` with probability
0. -/
def cfg2 : Config :=
  { maxDepth := 2, minFolders := 1, maxFolders := 1, minFiles := 1, maxFiles := 1,
    seed := 42, secondaryTables := [("s1", 0)] }

/-- Initial generation state seeded like the scenario's `SpectraFS`. -/
def gen0 : Gen := { rng := NewRNG 42, uuid := { tag := "u", ctr := 0 } }

/-- List the root's children in world `s1`. -/
def req2 : ParentReq := { parentId := "root", parentPath := "", tableName := "s1" }

/-- First `ListChildren` call of the scenario, on a fresh store. -/
def run1 : ListResult × Store × Gen := ListChildren (initStore ["s1"]) gen0 cfg2 req2

/-- Second, sequential `ListChildren` call for the same parent and world. -/
def run2 : ListResult × Store × Gen := ListChildren run1.2.1 run1.2.2 cfg2 req2

/-- Parent that does not exist in secondary world `s1`. -/
def absentParent : Node :=
  { id := "p1", parentId := "root", name := "p", path := "/p", parentPath := "/",
    typ := "folder", depthLevel := 1, size := 0, lastUpdated := 0,
    checksum := none, existenceMap := [("primary", true)] }

/-- Configuration whose only secondary world `s1` has probability 1.0
(`probDen` in fixed point). -/
def cfgProbOne : Config :=
  { maxDepth := 5, minFolders := 1, maxFolders := 1, minFiles := 1, maxFiles := 1,
    seed := 7, secondaryTables := [("s1", probDen)] }

/-- First record stored under id `x`. -/
def nodeA : Node :=
  { id := "x", parentId := "root", name := "first", path := "/first",
    parentPath := "/", typ := "folder", depthLevel := 1, size := 0,
    lastUpdated := 0, checksum := none, existenceMap := [("primary", true)] }

/-- Second record with the same id `x` but a different name. -/
def nodeB : Node :=
  { id := "x", parentId := "root", name := "second", path := "/second",
    parentPath := "/", typ := "folder", depthLevel := 1, size := 0,
    lastUpdated := 0, checksum := none, existenceMap := [("primary", true)] }

/-- File child `a.txt` of the root, for the child-ordering scenario. -/
def fileChild : Node :=
  { id := "f1", parentId := "root", name := "a.txt", path := "/a.txt",
    parentPath := "/", typ := "file", depthLevel := 1, size := 1024,
    lastUpdated := 0, checksum := some "c", existenceMap := [("primary", true)] }

/-- Folder child `b` of the root, for the child-ordering scenario. -/
def folderChild : Node :=
  { id := "d1", parentId := "root", name := "b", path := "/b",
    parentPath := "/", typ := "folder", depthLevel := 1, size := 0,
    lastUpdated := 0, checksum := none, existenceMap := [("primary", true)] }

/-- Store holding the root plus one file child and one folder child. -/
def orderStore : Store := InsertNode (InsertNode (initStore []) fileChild) folderChild

/-- Generation state with a different uuid source than `gen0` but the same
seed, modelling a second process run. -/
def gen0' : Gen := { rng := NewRNG 42, uuid := { tag := "v", ctr := 5 } }

/-- Configuration equal to `cfg2` except for the file-count bounds. -/
def cfg2files : Config :=
  { maxDepth := 2, minFolders := 1, maxFolders := 1, minFiles := 3, maxFiles := 4,
    seed := 42, secondaryTables := [("s1", 0)] }

/-- One-invocation sequence on the root, for the determinism scenario. -/
def invs8 : List (Node × Int) := [(rootNodeFor ["s1"], 0)]

/-- Existence map update keeping the primary world true. -/
def m9 : List (String × Bool) := [("primary", true), ("s1", false)]

/-- Store after updating the root's existence map with `m9`. -/
def updated9 : Store :=
  (UpdateExistenceMap (initStore ["s1"]) "root" m9).getD (initStore ["s1"])

/-- A `Put` binding is read back. -/
theorem bGet_bPut_self {α : Type} (b : List (String × α)) (k : String) (v : α) :
    bGet (bPut b k v) k = some v := by
  induction b with
  | nil => simp [bPut, bGet]
  | cons kv rest ih =>
    obtain ⟨k', v'⟩ := kv
    by_cases h : k' = k
    · simp [bPut, h, bGet]
    · simp [bPut, h, bGet, ih]

/-- A `Put` leaves other keys' bindings unchanged. -/
theorem bGet_bPut_ne {α : Type} (b : List (String × α)) (k j : String) (v : α)
    (h : j ≠ k) : bGet (bPut b k v) j = bGet b j := by
  induction b with
  | nil => simp [bPut, bGet, Ne.symm h]
  | cons kv rest ih =>
    obtain ⟨k', v'⟩ := kv
    by_cases hk : k' = k
    · subst hk
      simp [bPut, bGet, Ne.symm h]
    · simp [bPut, hk, bGet, ih]

/-- A deleted key reads as absent. -/
theorem bGet_bDel_self {α : Type} (b : List (String × α)) (k : String) :
    bGet (bDel b k) k = none := by
  induction b with
  | nil => simp [bDel, bGet]
  | cons kv rest ih =>
    obtain ⟨k', v'⟩ := kv
    by_cases h : k' = k
    · simpa [bDel, h] using ih
    · simpa [bDel, bGet, h] using ih

/-- The added key is a member of the key set. -/
theorem sAdd_mem (b : List String) (k : String) : k ∈ sAdd b k := by
  by_cases h : k ∈ b
  · simp [sAdd, h]
  · simp [sAdd, h]

/-- The record written by `storePut` is read back by id. -/
theorem GetNodeByID_storePut_self (s : Store) (n : Node) :
    GetNodeByID (storePut s n) n.id = some n := by
  simp [GetNodeByID, storePut, bGet_bPut_self]

/-- `storePut` leaves other ids' records unchanged. -/
theorem GetNodeByID_storePut_ne (s : Store) (n : Node) (j : String) (h : j ≠ n.id) :
    GetNodeByID (storePut s n) j = GetNodeByID s j := by
  simp [GetNodeByID, storePut, bGet_bPut_ne _ _ _ _ h]

/-- Presence of a record survives a `storePut`. -/
theorem storePut_present_mono (s : Store) (n : Node) (id : String)
    (h : (bGet s.nodes id).isSome) : (bGet (storePut s n).nodes id).isSome := by
  by_cases hid : id = n.id
  · subst hid
    simp [storePut, bGet_bPut_self]
  · simpa [storePut, bGet_bPut_ne _ _ _ _ hid] using h

/-- Presence of a record survives a bulk insert. -/
theorem BulkInsertNodes_present_mono (ns : List Node) (s : Store) (id : String)
    (h : (bGet s.nodes id).isSome) :
    (bGet (BulkInsertNodes s ns).nodes id).isSome := by
  induction ns generalizing s with
  | nil => simpa [BulkInsertNodes] using h
  | cons n rest ih =>
    by_cases hn : (bGet s.nodes n.id).isSome
    · simpa [BulkInsertNodes, hn] using ih s h
    · simpa [BulkInsertNodes, hn] using ih (storePut s n) (storePut_present_mono s n id h)

/-- A record already present before a bulk insert is left unchanged by it. -/
theorem BulkInsertNodes_preserves (ns : List Node) (s : Store) (id : String)
    (h : (bGet s.nodes id).isSome) :
    bGet (BulkInsertNodes s ns).nodes id = bGet s.nodes id := by
  induction ns generalizing s with
  | nil => simp [BulkInsertNodes]
  | cons n rest ih =>
    by_cases hn : (bGet s.nodes n.id).isSome
    · simpa [BulkInsertNodes, hn] using ih s h
    · have hid : id ≠ n.id := by
        intro he
        rw [he] at h
        exact hn h
      have step : bGet (storePut s n).nodes id = bGet s.nodes id := by
        simp [storePut, bGet_bPut_ne _ _ _ _ hid]
      rw [BulkInsertNodes, if_neg (by simpa using hn)]
      rw [ih (storePut s n) (by simpa [step] using h), step]

/-- Every id of the batch is present after the bulk insert. -/
theorem BulkInsertNodes_all_present (ns : List Node) (s : Store) (n : Node)
    (h : n ∈ ns) : (bGet (BulkInsertNodes s ns).nodes n.id).isSome := by
  induction ns generalizing s with
  | nil => cases h
  | cons m rest ih =>
    rcases List.mem_cons.mp h with rfl | hmem
    · by_cases hm : (bGet s.nodes n.id).isSome
      · simp only [BulkInsertNodes, hm, if_true]
        exact BulkInsertNodes_present_mono rest s n.id hm
      · simp only [BulkInsertNodes, hm, Bool.false_eq_true, if_false]
        exact BulkInsertNodes_present_mono rest (storePut s n) n.id
          (by simp [storePut, bGet_bPut_self])
    · by_cases hm : (bGet s.nodes m.id).isSome
      · simp only [BulkInsertNodes, hm, if_true]
        exact ih s hmem
      · simp only [BulkInsertNodes, hm, Bool.false_eq_true, if_false]
        exact ih (storePut s m) hmem

/-- A batch whose ids are all already present bulk-inserts to the identity. -/
theorem BulkInsertNodes_noop (ns : List Node) (s : Store)
    (h : ∀ n ∈ ns, (bGet s.nodes n.id).isSome) : BulkInsertNodes s ns = s := by
  induction ns with
  | nil => rfl
  | cons m rest ih =>
    have hm := h m (List.mem_cons_self m rest)
    simp only [BulkInsertNodes, hm, if_true]
    exact ih fun n hn => h n (List.mem_cons_of_mem m hn)

/-- Unfolding lemma: the first component of a uniform draw. -/
theorem rngFloat64_fst (r : RNG) : (rngFloat64 r).1 = mix r.seed r.ctr := rfl

/-- Unfolding lemma: a draw preserves the seed. -/
theorem rngFloat64_seed (r : RNG) : (rngFloat64 r).2.seed = r.seed := rfl

/-- Unfolding lemma: a draw advances the counter by one. -/
theorem rngFloat64_ctr (r : RNG) : (rngFloat64 r).2.ctr = r.ctr + 1 := rfl

/-- Unfolding lemma: map read on the empty map. -/
theorem emGet_nil (k : String) : emGet [] k = false := rfl

/-- Unfolding lemma: map read on a non-empty map. -/
theorem emGet_cons (k' : String) (v : Bool) (rest : List (String × Bool)) (k : String) :
    emGet ((k', v) :: rest) k = if k' = k then v else emGet rest k := by
  rw [emGet]

/-- Unfolding lemma: the roll loop on an empty configuration. -/
theorem rollWorlds_nil (r : RNG) : rollWorlds [] r = ([], r) := by
  rw [rollWorlds]

/-- Unfolding lemma: bindings produced by one step of the roll loop. -/
theorem rollWorlds_cons_fst (w : String) (p : Nat) (rest : List (String × Nat)) (r : RNG) :
    (rollWorlds ((w, p) :: rest) r).1
      = (if (rngFloat64 r).1 ≤ p then (w, true) :: (rollWorlds rest (rngFloat64 r).2).1
         else (rollWorlds rest (rngFloat64 r).2).1) := by
  rw [rollWorlds]

/-- Unfolding lemma: source state after one step of the roll loop. -/
theorem rollWorlds_cons_snd (w : String) (p : Nat) (rest : List (String × Nat)) (r : RNG) :
    (rollWorlds ((w, p) :: rest) r).2 = (rollWorlds rest (rngFloat64 r).2).2 := by
  rw [rollWorlds]

/-- The roll loop leaves the seed unchanged. -/
theorem rollWorlds_seed (ws : List (String × Nat)) (r : RNG) :
    (rollWorlds ws r).2.seed = r.seed := by
  induction ws generalizing r with
  | nil => rw [rollWorlds_nil]
  | cons wp rest ih =>
    obtain ⟨w, p⟩ := wp
    rw [rollWorlds_cons_snd, ih, rngFloat64_seed]

/-- The roll loop consumes exactly one draw per configured secondary world,
no matter what the rolls produce. -/
theorem rollWorlds_ctr (ws : List (String × Nat)) (r : RNG) :
    (rollWorlds ws r).2.ctr = r.ctr + ws.length := by
  induction ws generalizing r with
  | nil =>
    rw [rollWorlds_nil]
    simp
  | cons wp rest ih =>
    obtain ⟨w, p⟩ := wp
    rw [rollWorlds_cons_snd, ih, rngFloat64_ctr, List.length_cons]
    omega

/-- A world not named in the configuration list gets no binding from the roll
loop. -/
theorem rollWorlds_absent (ws : List (String × Nat)) (r : RNG) (w : String)
    (h : w ∉ ws.map Prod.fst) : emGet (rollWorlds ws r).1 w = false := by
  induction ws generalizing r with
  | nil =>
    rw [rollWorlds_nil]
    exact emGet_nil w
  | cons wp rest ih =>
    obtain ⟨w1, p1⟩ := wp
    have hw1 : w1 ≠ w := by
      intro he
      exact h (by simp [he])
    have hrest : w ∉ rest.map Prod.fst := by
      intro he
      exact h (by simp [he])
    rw [rollWorlds_cons_fst]
    by_cases hroll : (rngFloat64 r).1 ≤ p1
    · rw [if_pos hroll, emGet_cons, if_neg hw1]
      exact ih _ hrest
    · rw [if_neg hroll]
      exact ih _ hrest

/-- The binding a world receives from the roll loop: the draw at the world's
position in the configuration list, compared against its probability. -/
theorem rollWorlds_at (ws1 ws2 : List (String × Nat)) (w : String) (p : Nat) (r : RNG)
    (h1 : w ∉ ws1.map Prod.fst) (h2 : w ∉ ws2.map Prod.fst) :
    emGet (rollWorlds (ws1 ++ (w, p) :: ws2) r).1 w
      = decide (mix r.seed (r.ctr + ws1.length) ≤ p) := by
  induction ws1 generalizing r with
  | nil =>
    rw [List.nil_append, rollWorlds_cons_fst]
    by_cases hroll : (rngFloat64 r).1 ≤ p
    · rw [if_pos hroll, emGet_cons, if_pos rfl]
      simp only [List.length_nil, Nat.add_zero]
      symm
      rw [decide_eq_true_eq]
      exact hroll
    · rw [if_neg hroll, rollWorlds_absent _ _ _ h2]
      simp only [List.length_nil, Nat.add_zero]
      symm
      rw [decide_eq_false_iff_not]
      exact hroll
  | cons wp rest ih =>
    obtain ⟨w1, p1⟩ := wp
    have hw1 : w1 ≠ w := by
      intro he
      exact h1 (by simp [he])
    have hrest : w ∉ rest.map Prod.fst := by
      intro he
      exact h1 (by simp [he])
    have step := ih ((rngFloat64 r).2) hrest
    rw [rngFloat64_seed, rngFloat64_ctr] at step
    have harith : r.ctr + 1 + rest.length = r.ctr + ((w1, p1) :: rest).length := by
      rw [List.length_cons]
      omega
    rw [harith] at step
    rw [List.cons_append, rollWorlds_cons_fst]
    by_cases hroll : (rngFloat64 r).1 ≤ p1
    · rw [if_pos hroll, emGet_cons, if_neg hw1]
      exact step
    · rw [if_neg hroll]
      exact step

/-- Unfolding lemma: the generated folder node. -/
theorem generateFolder_fst (parent : Node) (index : Nat) (depth : Int) (cfg : Config)
    (r : RNG) (u : UuidGen) :
    (generateFolder parent index depth cfg r u).1
      = { id := (uuidNew u).1, parentId := parent.id,
          name := "folder_" ++ toString index,
          path := joinPath parent.path ("folder_" ++ toString index),
          parentPath := "", typ := "folder", depthLevel := depth, size := 0,
          lastUpdated := 0, checksum := none,
          existenceMap := ("primary", true) :: (rollWorlds cfg.secondaryTables r).1 } := rfl

/-- Unfolding lemma: the source state after generating a folder. -/
theorem generateFolder_rng (parent : Node) (index : Nat) (depth : Int) (cfg : Config)
    (r : RNG) (u : UuidGen) :
    (generateFolder parent index depth cfg r u).2.1 = (rollWorlds cfg.secondaryTables r).2 := rfl

/-- Unfolding lemma: the uuid state after generating a folder. -/
theorem generateFolder_uuid (parent : Node) (index : Nat) (depth : Int) (cfg : Config)
    (r : RNG) (u : UuidGen) :
    (generateFolder parent index depth cfg r u).2.2 = (uuidNew u).2 := rfl

/-- Unfolding lemma: the generated file node. -/
theorem generateFile_fst (parent : Node) (index : Nat) (depth : Int) (cfg : Config)
    (r : RNG) (u : UuidGen) :
    (generateFile parent index depth cfg r u).1
      = { id := (uuidNew u).1, parentId := parent.id,
          name := "file_" ++ toString index ++ ".txt",
          path := joinPath parent.path ("file_" ++ toString index ++ ".txt"),
          parentPath := "", typ := "file", depthLevel := depth, size := 1024,
          lastUpdated := 0, checksum := some (GenerateFileData r).2.1,
          existenceMap := ("primary", true)
            :: (rollWorlds cfg.secondaryTables (GenerateFileData r).2.2).1 } := rfl

/-- Unfolding lemma: the source state after generating a file. -/
theorem generateFile_rng (parent : Node) (index : Nat) (depth : Int) (cfg : Config)
    (r : RNG) (u : UuidGen) :
    (generateFile parent index depth cfg r u).2.1
      = (rollWorlds cfg.secondaryTables (GenerateFileData r).2.2).2 := rfl

/-- Unfolding lemma: the uuid state after generating a file. -/
theorem generateFile_uuid (parent : Node) (index : Nat) (depth : Int) (cfg : Config)
    (r : RNG) (u : UuidGen) :
    (generateFile parent index depth cfg r u).2.2 = (uuidNew u).2 := rfl

/-- Unfolding lemma: the rng state after producing file data. -/
theorem GenerateFileData_rng (r : RNG) :
    (GenerateFileData r).2.2 = { seed := r.seed, ctr := r.ctr + 1024 } := rfl

/-- Unfolding lemma: the folder pass generating no folder. -/
theorem genFolderList_zero (parent : Node) (depth : Int) (cfg : Config) (i : Nat)
    (r : RNG) (u : UuidGen) : genFolderList parent depth cfg 0 i r u = ([], r, u) := by
  rw [genFolderList]

/-- Unfolding lemma: one step of the folder pass. -/
theorem genFolderList_succ (parent : Node) (depth : Int) (cfg : Config) (k i : Nat)
    (r : RNG) (u : UuidGen) :
    genFolderList parent depth cfg (k + 1) i r u
      = ((generateFolder parent (i + 1) depth cfg r u).1
           :: (genFolderList parent depth cfg k (i + 1)
                (generateFolder parent (i + 1) depth cfg r u).2.1
                (generateFolder parent (i + 1) depth cfg r u).2.2).1,
         (genFolderList parent depth cfg k (i + 1)
            (generateFolder parent (i + 1) depth cfg r u).2.1
            (generateFolder parent (i + 1) depth cfg r u).2.2).2) := by
  rw [genFolderList]

/-- Unfolding lemma: the file pass generating no file. -/
theorem genFileList_zero (parent : Node) (depth : Int) (cfg : Config) (i : Nat)
    (r : RNG) (u : UuidGen) : genFileList parent depth cfg 0 i r u = ([], r, u) := by
  rw [genFileList]

/-- Unfolding lemma: one step of the file pass. -/
theorem genFileList_succ (parent : Node) (depth : Int) (cfg : Config) (k i : Nat)
    (r : RNG) (u : UuidGen) :
    genFileList parent depth cfg (k + 1) i r u
      = ((generateFile parent (i + 1) depth cfg r u).1
           :: (genFileList parent depth cfg k (i + 1)
                (generateFile parent (i + 1) depth cfg r u).2.1
                (generateFile parent (i + 1) depth cfg r u).2.2).1,
         (genFileList parent depth cfg k (i + 1)
            (generateFile parent (i + 1) depth cfg r u).2.1
            (generateFile parent (i + 1) depth cfg r u).2.2).2) := by
  rw [genFileList]

/-- Every node of the folder pass is a folder. -/
theorem genFolderList_typ (parent : Node) (depth : Int) (cfg : Config) :
    ∀ (k i : Nat) (r : RNG) (u : UuidGen) (n : Node),
      n ∈ (genFolderList parent depth cfg k i r u).1 → n.typ = "folder" := by
  intro k
  induction k with
  | zero =>
    intro i r u n hn
    rw [genFolderList_zero] at hn
    cases hn
  | succ k ih =>
    intro i r u n hn
    rw [genFolderList_succ] at hn
    rcases List.mem_cons.mp hn with rfl | hmem
    · rw [generateFolder_fst]
    · exact ih (i + 1) _ _ n hmem

/-- Every node of the file pass is a file. -/
theorem genFileList_typ (parent : Node) (depth : Int) (cfg : Config) :
    ∀ (k i : Nat) (r : RNG) (u : UuidGen) (n : Node),
      n ∈ (genFileList parent depth cfg k i r u).1 → n.typ = "file" := by
  intro k
  induction k with
  | zero =>
    intro i r u n hn
    rw [genFileList_zero] at hn
    cases hn
  | succ k ih =>
    intro i r u n hn
    rw [genFileList_succ] at hn
    rcases List.mem_cons.mp hn with rfl | hmem
    · rw [generateFile_fst]
    · exact ih (i + 1) _ _ n hmem

/-- The names, kinds and order of the folder pass, and its final source state,
do not depend on the uuid source. -/
theorem genFolderList_sig (parent : Node) (depth : Int) (cfg : Config) :
    ∀ (k i : Nat) (r : RNG) (u1 u2 : UuidGen),
      ((genFolderList parent depth cfg k i r u1).1.map nodeSig
          = (genFolderList parent depth cfg k i r u2).1.map nodeSig)
        ∧ (genFolderList parent depth cfg k i r u1).2.1
          = (genFolderList parent depth cfg k i r u2).2.1 := by
  intro k
  induction k with
  | zero =>
    intro i r u1 u2
    rw [genFolderList_zero, genFolderList_zero]
    exact ⟨rfl, rfl⟩
  | succ k ih =>
    intro i r u1 u2
    rw [genFolderList_succ, genFolderList_succ]
    rw [generateFolder_rng, generateFolder_rng, generateFolder_uuid, generateFolder_uuid]
    constructor
    · rw [List.map_cons, List.map_cons]
      rw [(ih (i + 1) ((rollWorlds cfg.secondaryTables r).2) ((uuidNew u1).2) ((uuidNew u2).2)).1]
      rw [generateFolder_fst, generateFolder_fst]
      simp [nodeSig]
    · exact (ih (i + 1) _ _ _).2

/-- The names, kinds and order of the file pass, and its final source state,
do not depend on the uuid source. -/
theorem genFileList_sig (parent : Node) (depth : Int) (cfg : Config) :
    ∀ (k i : Nat) (r : RNG) (u1 u2 : UuidGen),
      ((genFileList parent depth cfg k i r u1).1.map nodeSig
          = (genFileList parent depth cfg k i r u2).1.map nodeSig)
        ∧ (genFileList parent depth cfg k i r u1).2.1
          = (genFileList parent depth cfg k i r u2).2.1 := by
  intro k
  induction k with
  | zero =>
    intro i r u1 u2
    rw [genFileList_zero, genFileList_zero]
    exact ⟨rfl, rfl⟩
  | succ k ih =>
    intro i r u1 u2
    rw [genFileList_succ, genFileList_succ]
    rw [generateFile_rng, generateFile_rng, generateFile_uuid, generateFile_uuid]
    constructor
    · rw [List.map_cons, List.map_cons]
      rw [(ih (i + 1) ((rollWorlds cfg.secondaryTables (GenerateFileData r).2.2).2)
            ((uuidNew u1).2) ((uuidNew u2).2)).1]
      rw [generateFile_fst, generateFile_fst]
      simp [nodeSig]
    · exact (ih (i + 1) _ _ _).2

/-- The folder generator reads the configuration only through its secondary
world list. -/
theorem generateFolder_cfg (parent : Node) (index : Nat) (depth : Int)
    (cfg cfg' : Config) (r : RNG) (u : UuidGen)
    (hsec : cfg'.secondaryTables = cfg.secondaryTables) :
    generateFolder parent index depth cfg' r u = generateFolder parent index depth cfg r u := by
  simp only [generateFolder, hsec]

/-- The folder pass reads the configuration only through its secondary world
list. -/
theorem genFolderList_cfg (parent : Node) (depth : Int) (cfg cfg' : Config)
    (hsec : cfg'.secondaryTables = cfg.secondaryTables) :
    ∀ (k i : Nat) (r : RNG) (u : UuidGen),
      genFolderList parent depth cfg' k i r u = genFolderList parent depth cfg k i r u := by
  intro k
  induction k with
  | zero =>
    intro i r u
    rw [genFolderList_zero, genFolderList_zero]
  | succ k ih =>
    intro i r u
    rw [genFolderList_succ, genFolderList_succ]
    rw [generateFolder_cfg parent (i + 1) depth cfg cfg' r u hsec, ih]

/-- The file generator reads the configuration only through its secondary
world list. -/
theorem generateFile_cfg (parent : Node) (index : Nat) (depth : Int)
    (cfg cfg' : Config) (r : RNG) (u : UuidGen)
    (hsec : cfg'.secondaryTables = cfg.secondaryTables) :
    generateFile parent index depth cfg' r u = generateFile parent index depth cfg r u := by
  simp only [generateFile, hsec]

/-- The file pass reads the configuration only through its secondary world
list. -/
theorem genFileList_cfg (parent : Node) (depth : Int) (cfg cfg' : Config)
    (hsec : cfg'.secondaryTables = cfg.secondaryTables) :
    ∀ (k i : Nat) (r : RNG) (u : UuidGen),
      genFileList parent depth cfg' k i r u = genFileList parent depth cfg k i r u := by
  intro k
  induction k with
  | zero =>
    intro i r u
    rw [genFileList_zero, genFileList_zero]
  | succ k ih =>
    intro i r u
    rw [genFileList_succ, genFileList_succ]
    rw [generateFile_cfg parent (i + 1) depth cfg cfg' r u hsec, ih]

/-- Result abstraction for the determinism contract: per-child name/kind
signatures in order, plus the final state of the shared random source. -/
def sigRes (res : Except String (List Node × Gen)) :
    Except String (List (String × String) × RNG) :=
  res.map (fun x => (x.1.map nodeSig, x.2.rng))

/-- One generator invocation: the produced signatures and the final source
state do not depend on the uuid source. -/
theorem GenerateChildren_sig_eq (p : Node) (d : Int) (c : Config) (r : RNG)
    (u1 u2 : UuidGen) :
    sigRes (GenerateChildren p d { rng := r, uuid := u1 } (some c))
      = sigRes (GenerateChildren p d { rng := r, uuid := u2 } (some c)) := by
  simp only [GenerateChildren]
  by_cases hd : d ≥ c.maxDepth
  · simp only [if_pos hd, sigRes, Except.map]
  · simp only [if_neg hd]
    by_cases hs : c.maxFolders - c.minFolders + 1 ≤ 0
    · simp only [if_pos hs]
    · simp only [if_neg hs]
      obtain ⟨hfs, hfr⟩ :=
        genFolderList_sig p (d + 1) c
          ((((rngIntn r (c.maxFolders - c.minFolders + 1).toNat).1 : Int) + c.minFolders).toNat)
          0 ((rngIntn r (c.maxFolders - c.minFolders + 1).toNat).2) u1 u2
      rw [hfr]
      by_cases hf : c.maxFiles - c.minFiles + 1 ≤ 0
      · simp only [if_pos hf]
      · simp only [if_neg hf]
        obtain ⟨hgs, hgr⟩ :=
          genFileList_sig p (d + 1) c
            ((((rngIntn
                  (genFolderList p (d + 1) c
                    ((((rngIntn r (c.maxFolders - c.minFolders + 1).toNat).1 : Int)
                        + c.minFolders).toNat)
                    0 ((rngIntn r (c.maxFolders - c.minFolders + 1).toNat).2) u2).2.1
                  (c.maxFiles - c.minFiles + 1).toNat).1 : Int) + c.minFiles).toNat)
            0 ((rngIntn
                  (genFolderList p (d + 1) c
                    ((((rngIntn r (c.maxFolders - c.minFolders + 1).toNat).1 : Int)
                        + c.minFolders).toNat)
                    0 ((rngIntn r (c.maxFolders - c.minFolders + 1).toNat).2) u2).2.1
                  (c.maxFiles - c.minFiles + 1).toNat).2)
            ((genFolderList p (d + 1) c
                ((((rngIntn r (c.maxFolders - c.minFolders + 1).toNat).1 : Int)
                    + c.minFolders).toNat)
                0 ((rngIntn r (c.maxFolders - c.minFolders + 1).toNat).2) u1).2.2)
            ((genFolderList p (d + 1) c
                ((((rngIntn r (c.maxFolders - c.minFolders + 1).toNat).1 : Int)
                    + c.minFolders).toNat)
                0 ((rngIntn r (c.maxFolders - c.minFolders + 1).toNat).2) u2).2.2)
        simp only [sigRes, Except.map, List.map_append]
        rw [hfs, hgs, hgr]

/-- Unfolding lemma: an empty invocation sequence. -/
theorem runSeq_nil (g : Gen) (cfg : Option Config) : runSeq [] g cfg = .ok ([], g) := by
  rw [runSeq]

/-- Unfolding lemma: a failing head invocation fails the run. -/
theorem runSeq_cons_err (p : Node) (d : Int) (rest : List (Node × Int)) (g : Gen)
    (cfg : Option Config) (e : String) (h : GenerateChildren p d g cfg = .error e) :
    runSeq ((p, d) :: rest) g cfg = .error e := by
  rw [runSeq, h]

/-- Unfolding lemma: a succeeding head invocation prepends its children. -/
theorem runSeq_cons_ok (p : Node) (d : Int) (rest : List (Node × Int)) (g : Gen)
    (cfg : Option Config) (cs : List Node) (g' : Gen)
    (h : GenerateChildren p d g cfg = .ok (cs, g')) :
    runSeq ((p, d) :: rest) g cfg
      = (match runSeq rest g' cfg with
         | .error e => .error e
         | .ok (css, g'') => .ok (cs :: css, g'')) := by
  rw [runSeq, h]

/-- A run's per-invocation signatures and final source state do not depend on
the uuid source. -/
theorem runSeq_sig_eq (invs : List (Node × Int)) (c : Config) :
    ∀ (r : RNG) (u1 u2 : UuidGen),
      (runSeq invs { rng := r, uuid := u1 } (some c)).map
          (fun x => (x.1.map (fun cs => cs.map nodeSig), x.2.rng))
        = (runSeq invs { rng := r, uuid := u2 } (some c)).map
          (fun x => (x.1.map (fun cs => cs.map nodeSig), x.2.rng)) := by
  induction invs with
  | nil =>
    intro r u1 u2
    rw [runSeq_nil, runSeq_nil]
    simp [Except.map]
  | cons pd rest ih =>
    obtain ⟨p, d⟩ := pd
    intro r u1 u2
    have hsig := GenerateChildren_sig_eq p d c r u1 u2
    cases hgc1 : GenerateChildren p d { rng := r, uuid := u1 } (some c) with
    | error e =>
      cases hgc2 : GenerateChildren p d { rng := r, uuid := u2 } (some c) with
      | error e2 =>
        rw [hgc1, hgc2] at hsig
        simp only [sigRes, Except.map] at hsig
        cases hsig
        rw [runSeq_cons_err p d rest _ _ e hgc1, runSeq_cons_err p d rest _ _ e hgc2]
      | ok val2 =>
        rw [hgc1, hgc2] at hsig
        simp [sigRes, Except.map] at hsig
    | ok val =>
      obtain ⟨cs1, g1'⟩ := val
      cases hgc2 : GenerateChildren p d { rng := r, uuid := u2 } (some c) with
      | error e =>
        rw [hgc1, hgc2] at hsig
        simp [sigRes, Except.map] at hsig
      | ok val2 =>
        obtain ⟨cs2, g2'⟩ := val2
        rw [hgc1, hgc2] at hsig
        simp only [sigRes, Except.map, Except.ok.injEq, Prod.mk.injEq] at hsig
        obtain ⟨hcs, hrng⟩ := hsig
        obtain ⟨r1, v1⟩ := g1'
        obtain ⟨r2, v2⟩ := g2'
        simp only at hrng
        subst hrng
        rw [runSeq_cons_ok p d rest _ _ cs1 _ hgc1, runSeq_cons_ok p d rest _ _ cs2 _ hgc2]
        have hrec := ih r1 v1 v2
        cases h1 : runSeq rest { rng := r1, uuid := v1 } (some c) with
        | error e =>
          cases h2 : runSeq rest { rng := r1, uuid := v2 } (some c) with
          | error e2 =>
            rw [h1, h2] at hrec
            simp only [Except.map] at hrec
            cases hrec
            simp [Except.map]
          | ok w2 =>
            rw [h1, h2] at hrec
            simp [Except.map] at hrec
        | ok w1 =>
          cases h2 : runSeq rest { rng := r1, uuid := v2 } (some c) with
          | error e2 =>
            rw [h1, h2] at hrec
            simp [Except.map] at hrec
          | ok w2 =>
            obtain ⟨css1, gf1⟩ := w1
            obtain ⟨css2, gf2⟩ := w2
            rw [h1, h2] at hrec
            simp only [Except.map, Except.ok.injEq, Prod.mk.injEq] at hrec
            obtain ⟨hcss, hgf⟩ := hrec
            simp only [Except.map, Except.ok.injEq, Prod.mk.injEq, List.map_cons]
            exact ⟨by rw [hcs, hcss], hgf⟩

/-- Lists of file nodes contribute nothing to the folder filter. -/
theorem filter_folder_of_all_file (l : List Node) (h : ∀ n ∈ l, n.typ = "file") :
    l.filter (fun n => n.typ = "folder") = [] := by
  induction l with
  | nil => rfl
  | cons a t ih =>
    have ha := h a (List.mem_cons_self a t)
    have ht := fun n hn => h n (List.mem_cons_of_mem a hn)
    simp [List.filter, ha, ih ht]

/-- Lists of folder nodes are fixed by the folder filter. -/
theorem filter_folder_of_all_folder (l : List Node) (h : ∀ n ∈ l, n.typ = "folder") :
    l.filter (fun n => n.typ = "folder") = l := by
  induction l with
  | nil => rfl
  | cons a t ih =>
    have ha := h a (List.mem_cons_self a t)
    have ht := fun n hn => h n (List.mem_cons_of_mem a hn)
    simp [List.filter, ha, ih ht]

/-- The folder sublist of one invocation does not depend on the file-count
bounds: the folder pass runs before any file-related draw. -/
theorem GenerateChildren_folders_cfg (p : Node) (d : Int) (g : Gen) (cfg cfg' : Config)
    (hmd : cfg'.maxDepth = cfg.maxDepth)
    (hminfo : cfg'.minFolders = cfg.minFolders)
    (hmaxfo : cfg'.maxFolders = cfg.maxFolders)
    (hsec : cfg'.secondaryTables = cfg.secondaryTables)
    (hmf : cfg.minFiles ≤ cfg.maxFiles)
    (hmf' : cfg'.minFiles ≤ cfg'.maxFiles) :
    foldersOf (GenerateChildren p d g (some cfg))
      = foldersOf (GenerateChildren p d g (some cfg')) := by
  simp only [GenerateChildren, hmd, hminfo, hmaxfo]
  by_cases hd : d ≥ cfg.maxDepth
  · simp only [if_pos hd]
  · simp only [if_neg hd]
    by_cases hs : cfg.maxFolders - cfg.minFolders + 1 ≤ 0
    · simp only [if_pos hs]
    · simp only [if_neg hs]
      rw [genFolderList_cfg p (d + 1) cfg cfg' hsec]
      have hf : ¬ cfg.maxFiles - cfg.minFiles + 1 ≤ 0 := by omega
      have hf' : ¬ cfg'.maxFiles - cfg'.minFiles + 1 ≤ 0 := by omega
      simp only [if_neg hf, if_neg hf']
      simp only [foldersOf, Except.map, Except.ok.injEq, List.filter_append]
      rw [filter_folder_of_all_file _ (fun n hn => genFileList_typ p (d + 1) cfg _ _ _ _ n hn),
        filter_folder_of_all_file _ (fun n hn => genFileList_typ p (d + 1) cfg' _ _ _ _ n hn)]

/-- C1 (amended): for every generated child and every configured secondary
world `S` with probability `p`, the generator always consumes one uniform draw
for `S` — the draw at `S`'s position in the configuration, offset by the 1024
content draws for files — and sets the child's existence in `S` to true iff
the draw is at most `p`, entirely independent of the parent's existence map;
the parent is never consulted and existence in `S` is never forced false by
the parent's absence. -/
theorem C1_secondary_rolls_unconditional (parent : Node) (em2 : List (String × Bool))
    (index : Nat) (depth : Int) (cfg : Config) (r : RNG) (u : UuidGen)
    (ws1 ws2 : List (String × Nat)) (w : String) (p : Nat)
    (hsplit : cfg.secondaryTables = ws1 ++ (w, p) :: ws2)
    (hw1 : w ∉ ws1.map Prod.fst) (hw2 : w ∉ ws2.map Prod.fst)
    (hwp : w ≠ "primary") :
    generateFolder { parent with existenceMap := em2 } index depth cfg r u
        = generateFolder parent index depth cfg r u
      ∧ generateFile { parent with existenceMap := em2 } index depth cfg r u
        = generateFile parent index depth cfg r u
      ∧ emGet (generateFolder parent index depth cfg r u).1.existenceMap w
        = decide (mix r.seed (r.ctr + ws1.length) ≤ p)
      ∧ emGet (generateFile parent index depth cfg r u).1.existenceMap w
        = decide (mix r.seed (r.ctr + 1024 + ws1.length) ≤ p)
      ∧ (generateFolder parent index depth cfg r u).2.1.ctr
        = r.ctr + cfg.secondaryTables.length := by
  refine ⟨rfl, rfl, ?_, ?_, ?_⟩
  · rw [generateFolder_fst]
    show emGet (("primary", true) :: (rollWorlds cfg.secondaryTables r).1) w = _
    rw [emGet_cons, if_neg (fun he => hwp he.symm), hsplit]
    exact rollWorlds_at ws1 ws2 w p r hw1 hw2
  · rw [generateFile_fst]
    show emGet (("primary", true)
        :: (rollWorlds cfg.secondaryTables (GenerateFileData r).2.2).1) w = _
    rw [emGet_cons, if_neg (fun he => hwp he.symm), hsplit, GenerateFileData_rng]
    exact rollWorlds_at ws1 ws2 w p { seed := r.seed, ctr := r.ctr + 1024 } hw1 hw2
  · rw [generateFolder_rng]
    exact rollWorlds_ctr cfg.secondaryTables r

/-- C1 witness: the amended statement instantiated for a parent absent from
`s1`, with `s1` the only secondary world at probability 1. -/
theorem C1_secondary_rolls_unconditional_witness :
    generateFolder { absentParent with existenceMap := [] } 1 2 cfgProbOne (NewRNG 7)
        { tag := "u", ctr := 0 }
      = generateFolder absentParent 1 2 cfgProbOne (NewRNG 7) { tag := "u", ctr := 0 }
    ∧ generateFile { absentParent with existenceMap := [] } 1 2 cfgProbOne (NewRNG 7)
        { tag := "u", ctr := 0 }
      = generateFile absentParent 1 2 cfgProbOne (NewRNG 7) { tag := "u", ctr := 0 }
    ∧ emGet (generateFolder absentParent 1 2 cfgProbOne (NewRNG 7)
          { tag := "u", ctr := 0 }).1.existenceMap "s1"
      = decide (mix (NewRNG 7).seed ((NewRNG 7).ctr + ([] : List (String × Nat)).length) ≤ probDen)
    ∧ emGet (generateFile absentParent 1 2 cfgProbOne (NewRNG 7)
          { tag := "u", ctr := 0 }).1.existenceMap "s1"
      = decide (mix (NewRNG 7).seed ((NewRNG 7).ctr + 1024 + ([] : List (String × Nat)).length) ≤ probDen)
    ∧ (generateFolder absentParent 1 2 cfgProbOne (NewRNG 7)
          { tag := "u", ctr := 0 }).2.1.ctr
      = (NewRNG 7).ctr + cfgProbOne.secondaryTables.length :=
  C1_secondary_rolls_unconditional absentParent [] 1 2 cfgProbOne (NewRNG 7)
    { tag := "u", ctr := 0 } [] [] "s1" probDen (by decide) (by decide) (by decide)
    (by decide)

/-- C1 counterexample: with secondary world `s1` at probability 1 and a parent
that does not exist in `s1`, the generated child's existence in `s1` is rolled
true (and a draw is consumed), contradicting the claim that it is forced false
with no draw. -/
theorem C1_counterexample :
    emGet absentParent.existenceMap "s1" = false
      ∧ emGet (generateFolder absentParent 1 2 cfgProbOne (NewRNG 7)
            { tag := "u", ctr := 0 }).1.existenceMap "s1" = true
      ∧ (generateFolder absentParent 1 2 cfgProbOne (NewRNG 7)
            { tag := "u", ctr := 0 }).2.1.ctr = 1 := by
  decide

/-- C2 (code bug): listing the root's children twice in secondary world `s1`
(probability 0) generates and inserts a second, disjoint batch: after the
first call the store holds one batch of 2 children of the root, after the
second call it holds 4, two of them named `folder_1`, so the store contains
two independently generated batches for the same parent. -/
theorem C2_second_listing_inserts_second_batch :
    (run1.2.1.nodes.filter (fun kv => kv.2.parentId = "root")).length = 2
      ∧ (run2.2.1.nodes.filter (fun kv => kv.2.parentId = "root")).length = 4
      ∧ (run2.2.1.nodes.filter (fun kv => kv.2.name = "folder_1")).length = 2
      ∧ run1.1.success = true ∧ run2.1.success = true := by
  decide

/-- C3 (amended): when the resolved parent does not exist in the requested
world, `ListChildren` returns a successful result with empty folder and file
lists and does not touch the store or the generation state; but when parent
resolution fails (NotFound), it returns a structured failure result
(`success = false`, still with no Go-level error — the model's return type
carries no error channel because the source returns `nil` on every path). -/
theorem C3_world_absence_empty_success (s : Store) (g : Gen) (cfg : Config)
    (req : ParentReq) (hval : ValidateParentIdentifier req = true) :
    (resolveParentReq s req = none →
        (ListChildren s g cfg req).1
            = { success := false, message := "Parent node not found",
                folders := [], files := [] }
          ∧ (ListChildren s g cfg req).2 = (s, g))
      ∧ (∀ parent world, resolveParentReq s req = some (parent, world) →
          emGet parent.existenceMap world = false →
          (ListChildren s g cfg req).1
              = { success := true,
                  message := "Node does not exist in world " ++ world,
                  folders := [], files := [] }
            ∧ (ListChildren s g cfg req).2 = (s, g)) := by
  constructor
  · intro h
    simp only [ListChildren, hval, Bool.not_true, Bool.false_eq_true, if_false, h]
    exact ⟨trivial, trivial⟩
  · intro parent world h hw
    simp only [ListChildren, hval, Bool.not_true, Bool.false_eq_true, if_false, h, hw,
      Bool.not_false, if_true]
    exact ⟨trivial, trivial⟩

/-- C3 witness: on a fresh store, listing children of the existing root in a
world it does not inhabit, and of a missing parent id. -/
theorem C3_world_absence_empty_success_witness :
    ((ListChildren (initStore []) gen0 cfg2
          { parentId := "root", parentPath := "", tableName := "s1" }).1
        = { success := true, message := "Node does not exist in world s1",
            folders := [], files := [] }
      ∧ (ListChildren (initStore []) gen0 cfg2
            { parentId := "root", parentPath := "", tableName := "s1" }).2
        = (initStore [], gen0)) :=
  (C3_world_absence_empty_success (initStore []) gen0 cfg2
      { parentId := "root", parentPath := "", tableName := "s1" } (by decide)).2
    (rootNodeFor []) "s1" (by decide) (by decide)

/-- C3 counterexample: resolving a missing parent id makes `ListChildren`
return a failure result (`success = false`), not the successful empty result
the claim requires for the NotFound case. -/
theorem C3_counterexample :
    (ListChildren (initStore ["s1"]) gen0 cfg2
        { parentId := "ghost", parentPath := "", tableName := "" }).1.success = false := by
  decide

/-- C4 (amended): `InsertNode` performs no duplicate-id check: for every store
and node it unconditionally writes the record — overwriting any existing
record with the same id — and updates the by-id, by-path and by-parent
adjacency indexes in the same transaction, leaving every other id's record
unchanged; it never fails with a Conflict. -/
theorem C4_insert_overwrites (s : Store) (n : Node) :
    GetNodeByID (InsertNode s n) n.id = some n
      ∧ (n.parentId ++ "|" ++ n.id) ∈ (InsertNode s n).idxParentId
      ∧ bGet (InsertNode s n).idxPath n.path = some n.id
      ∧ (n.parentPath ++ "|" ++ n.id) ∈ (InsertNode s n).idxParentPath
      ∧ (∀ j, j ≠ n.id → GetNodeByID (InsertNode s n) j = GetNodeByID s j) := by
  refine ⟨GetNodeByID_storePut_self s n, ?_, ?_, ?_, ?_⟩
  · exact sAdd_mem s.idxParentId (n.parentId ++ "|" ++ n.id)
  · exact bGet_bPut_self s.idxPath n.path n.id
  · exact sAdd_mem s.idxParentPath (n.parentPath ++ "|" ++ n.id)
  · intro j hj
    exact GetNodeByID_storePut_ne s n j hj

/-- C4 witness: inserting a fresh node makes it readable by id, indexed, and
leaves an unrelated id's (absent) record unchanged. -/
theorem C4_insert_overwrites_witness :
    GetNodeByID (InsertNode (initStore []) nodeA) nodeA.id = some nodeA
      ∧ GetNodeByID (InsertNode (initStore []) nodeA) "zzz"
        = GetNodeByID (initStore []) "zzz" :=
  ⟨(C4_insert_overwrites (initStore []) nodeA).1,
   (C4_insert_overwrites (initStore []) nodeA).2.2.2.2 "zzz" (by decide)⟩

/-- C4 counterexample: inserting a second record with the already-present id
`x` does not fail and replaces the stored record, contradicting the claimed
Conflict failure that leaves the record unchanged. -/
theorem C4_counterexample :
    GetNodeByID (InsertNode (InsertNode (initStore []) nodeA) nodeB) "x" = some nodeB
      ∧ nodeB ≠ nodeA := by
  decide

/-- C5 (code bug): on a store whose root has one file child `a.txt` and one
folder child `b`, both existing in the primary world, `GetChildrenByParentID`
returns the file before the folder: the comparator orders the Go strings
`"file" < "folder"` lexicographically, so all files sort before all folders,
contrary to the claimed folders-first order. -/
theorem C5_files_sort_before_folders :
    (GetChildrenByParentID orderStore "root" "primary").map Node.name = ["a.txt", "b"]
      ∧ (GetChildrenByParentID orderStore "root" "primary").map Node.typ
        = ["file", "folder"]
      ∧ strLtB "file" "folder" = true := by
  decide

/-- C6: `BulkInsertNodes` silently skips every record whose id already exists,
leaving the stored record unchanged, and never fails; hence re-inserting an
already-inserted batch is the identity on the store (idempotent re-insertion).
The whole batch runs in one transaction in the source; the model's single
total function application reflects that atomicity. -/
theorem C6_bulk_insert_idempotent (s : Store) (ns : List Node) :
    (∀ id, (bGet s.nodes id).isSome →
        bGet (BulkInsertNodes s ns).nodes id = bGet s.nodes id)
      ∧ BulkInsertNodes (BulkInsertNodes s ns) ns = BulkInsertNodes s ns := by
  constructor
  · intro id h
    exact BulkInsertNodes_preserves ns s id h
  · exact BulkInsertNodes_noop ns (BulkInsertNodes s ns)
      (fun n hn => BulkInsertNodes_all_present ns s n hn)

/-- C6 witness: the already-present root record survives a bulk insert
unchanged, and re-inserting the same batch changes nothing. -/
theorem C6_bulk_insert_idempotent_witness :
    bGet (BulkInsertNodes (initStore []) [nodeA]).nodes "root"
        = bGet (initStore []).nodes "root"
      ∧ BulkInsertNodes (BulkInsertNodes (initStore []) [nodeA]) [nodeA]
        = BulkInsertNodes (initStore []) [nodeA] :=
  ⟨(C6_bulk_insert_idempotent (initStore []) [nodeA]).1 "root" (by decide),
   (C6_bulk_insert_idempotent (initStore []) [nodeA]).2⟩

/-- C7: for every parent, depth and non-nil configuration, `GenerateChildren`
returns an empty child list, an unchanged generation state and no error as
soon as `depth >= max_depth`. -/
theorem C7_depth_cutoff (parent : Node) (depth : Int) (g : Gen) (cfg : Config)
    (h : depth ≥ cfg.maxDepth) :
    GenerateChildren parent depth g (some cfg) = .ok ([], g) := by
  simp only [GenerateChildren, if_pos h]

/-- C7 witness: the cutoff at depth 5 against a configured max depth of 2. -/
theorem C7_depth_cutoff_witness :
    (5 : Int) ≥ cfg2.maxDepth
      ∧ GenerateChildren (rootNodeFor ["s1"]) 5 gen0 (some cfg2) = .ok ([], gen0) :=
  ⟨by decide, C7_depth_cutoff (rootNodeFor ["s1"]) 5 gen0 cfg2 (by decide)⟩

/-- C8: (determinism) two generators over the same seeded source — regardless
of their uuid sources — produce, on any structurally identical sequence of
parent/depth invocations, child lists identical in name, kind and order; and
(two-pass contract) within one invocation the folder sublist is unchanged
under any change of the file-count bounds alone (both configurations having
valid file ranges), because all folders are generated before any file draw. -/
theorem C8_seed_determinism_and_two_pass (cfg cfg' : Config) (g1 g2 : Gen)
    (invs : List (Node × Int)) (p : Node) (d : Int)
    (hrng : g1.rng = g2.rng)
    (hmd : cfg'.maxDepth = cfg.maxDepth)
    (hminfo : cfg'.minFolders = cfg.minFolders)
    (hmaxfo : cfg'.maxFolders = cfg.maxFolders)
    (hsec : cfg'.secondaryTables = cfg.secondaryTables)
    (hmf : cfg.minFiles ≤ cfg.maxFiles)
    (hmf' : cfg'.minFiles ≤ cfg'.maxFiles) :
    runSigs invs g1 (some cfg) = runSigs invs g2 (some cfg)
      ∧ foldersOf (GenerateChildren p d g1 (some cfg))
        = foldersOf (GenerateChildren p d g1 (some cfg')) := by
  obtain ⟨r1, u1⟩ := g1
  obtain ⟨r2, u2⟩ := g2
  simp only at hrng
  subst hrng
  constructor
  · have h := runSeq_sig_eq invs cfg r1 u1 u2
    unfold runSigs
    cases h1 : runSeq invs { rng := r1, uuid := u1 } (some cfg) with
    | error e =>
      cases h2 : runSeq invs { rng := r1, uuid := u2 } (some cfg) with
      | error e2 =>
        rw [h1, h2] at h
        simp only [Except.map] at h
        cases h
        rfl
      | ok w =>
        rw [h1, h2] at h
        simp [Except.map] at h
    | ok w1 =>
      cases h2 : runSeq invs { rng := r1, uuid := u2 } (some cfg) with
      | error e2 =>
        rw [h1, h2] at h
        simp [Except.map] at h
      | ok w2 =>
        rw [h1, h2] at h
        simp only [Except.map, Except.ok.injEq, Prod.mk.injEq] at h
        simp only [Except.map, Except.ok.injEq]
        exact h.1
  · exact GenerateChildren_folders_cfg p d { rng := r1, uuid := u1 } cfg cfg'
      hmd hminfo hmaxfo hsec hmf hmf'

/-- C8 witness: the determinism and two-pass statement instantiated for two
differently-tagged uuid sources over seed 42 and the one-folder/one-file
configurations differing only in file bounds. -/
theorem C8_seed_determinism_and_two_pass_witness :
    runSigs invs8 gen0 (some cfg2) = runSigs invs8 gen0' (some cfg2)
      ∧ foldersOf (GenerateChildren (rootNodeFor ["s1"]) 0 gen0 (some cfg2))
        = foldersOf (GenerateChildren (rootNodeFor ["s1"]) 0 gen0 (some cfg2files)) :=
  C8_seed_determinism_and_two_pass cfg2 cfg2files gen0 gen0' invs8
    (rootNodeFor ["s1"]) 0 (by decide) (by decide) (by decide) (by decide) (by decide)
    (by decide) (by decide)

/-- C9 (amended): every node-creating operation establishes
`existence["primary"] = true` — the root created at initialization or reset,
every generator-produced folder and file, and every explicitly created folder
or uploaded file; `UpdateExistenceMap`, however, replaces the stored map
wholesale with the caller's map, so it preserves the invariant exactly when
the supplied map has `primary` true, and can store a map violating it
otherwise. -/
theorem C9_primary_existence (secs : List String) (parent : Node) (index : Nat)
    (depth : Int) (cfg : Config) (r : RNG) (u : UuidGen) (s : Store) (g : Gen)
    (req : ParentReq) (name : String) (data : List Nat) (id : String)
    (m : List (String × Bool)) :
    emGet (rootNodeFor secs).existenceMap "primary" = true
      ∧ emGet (generateFolder parent index depth cfg r u).1.existenceMap "primary" = true
      ∧ emGet (generateFile parent index depth cfg r u).1.existenceMap "primary" = true
      ∧ (∀ n s' g', CreateFolder s g cfg req name = .ok (n, s', g') →
          emGet n.existenceMap "primary" = true)
      ∧ (∀ n s' g', UploadFile s g cfg req name data = .ok (n, s', g') →
          emGet n.existenceMap "primary" = true)
      ∧ (∀ s', emGet m "primary" = true → UpdateExistenceMap s id m = some s' →
          ∃ n', GetNodeByID s' id = some n'
            ∧ emGet n'.existenceMap "primary" = true) := by
  refine ⟨?_, ?_, ?_, ?_, ?_, ?_⟩
  · show emGet (("primary", true) :: secs.map (fun w => (w, true))) "primary" = true
    rw [emGet_cons, if_pos rfl]
  · rw [generateFolder_fst]
    show emGet (("primary", true) :: (rollWorlds cfg.secondaryTables r).1) "primary" = true
    rw [emGet_cons, if_pos rfl]
  · rw [generateFile_fst]
    show emGet (("primary", true)
        :: (rollWorlds cfg.secondaryTables (GenerateFileData r).2.2).1) "primary" = true
    rw [emGet_cons, if_pos rfl]
  · intro n s' g' h
    simp only [CreateFolder] at h
    split at h
    · exact Except.noConfusion h
    · split at h
      · exact Except.noConfusion h
      · split at h
        · exact Except.noConfusion h
        · split at h
          · exact Except.noConfusion h
          · injection h with hh
            have hn := congrArg Prod.fst hh
            simp only at hn
            rw [← hn]
            rw [emGet_cons, if_pos rfl]
  · intro n s' g' h
    simp only [UploadFile] at h
    split at h
    · exact Except.noConfusion h
    · split at h
      · exact Except.noConfusion h
      · split at h
        · exact Except.noConfusion h
        · split at h
          · exact Except.noConfusion h
          · split at h
            · exact Except.noConfusion h
            · injection h with hh
              have hn := congrArg Prod.fst hh
              simp only at hn
              rw [← hn]
              rw [emGet_cons, if_pos rfl]
  · intro s' hm h
    simp only [UpdateExistenceMap] at h
    split at h
    · exact Option.noConfusion h
    · rename_i n0 heq
      injection h with hh
      refine ⟨{ n0 with existenceMap := m }, ?_, hm⟩
      rw [← hh]
      show bGet (bPut s.nodes id { n0 with existenceMap := m }) id = _
      exact bGet_bPut_self s.nodes id { n0 with existenceMap := m }

/-- C9 witness: the root's primary existence, and an existence-map update
whose supplied map keeps `primary` true. -/
theorem C9_primary_existence_witness :
    emGet (rootNodeFor ["s1"]).existenceMap "primary" = true
      ∧ ∃ n', GetNodeByID updated9 "root" = some n'
          ∧ emGet n'.existenceMap "primary" = true :=
  ⟨(C9_primary_existence ["s1"] absentParent 1 1 cfg2 (NewRNG 42)
      { tag := "u", ctr := 0 } (initStore ["s1"]) gen0 req2 "nf" [1] "root" m9).1,
   (C9_primary_existence ["s1"] absentParent 1 1 cfg2 (NewRNG 42)
      { tag := "u", ctr := 0 } (initStore ["s1"]) gen0 req2 "nf" [1] "root" m9).2.2.2.2.2
     updated9 (by decide) (by decide)⟩

/-- C9 counterexample: `UpdateExistenceMap` accepts a map with `primary`
false and stores it: afterwards the root's primary-world existence reads
false, violating the claimed invariant preservation of `update_existence`. -/
theorem C9_counterexample :
    ((UpdateExistenceMap (initStore ["s1"]) "root" [("primary", false)]).bind
        (fun s' => GetNodeByID s' "root")).map
      (fun n => emGet n.existenceMap "primary") = some false := by
  decide

/-- C10: every valid request resolving to the root node is rejected by
`DeleteNode` with the `cannot delete root node` error (and, the operation
returning only an error, the store is unchanged); and for every freshly
inserted non-root node, deleting it by id succeeds and a subsequent
`GetNodeByID` on its id is NotFound. -/
theorem C10_root_protected_nonroot_deleted (s : Store) (req : NodeReq)
    (node : Node) (world : String) (n : Node) :
    (ValidateNodeIdentifier req = true →
        resolveNodeReq s req = some (node, world) → node.id = "root" →
        FsDeleteNode s req = .error "cannot delete root node")
      ∧ (n.id ≠ "" → n.id ≠ "root" →
          ∃ s2, FsDeleteNode (InsertNode s n)
              { id := n.id, path := "", tableName := "" } = .ok s2
            ∧ GetNodeByID s2 n.id = none) := by
  constructor
  · intro hval hres hroot
    simp only [FsDeleteNode, hval, Bool.not_true, Bool.false_eq_true, if_false, hres]
    rw [if_pos hroot]
  · intro hne hroot
    have hget : GetNodeByID (InsertNode s n) n.id = some n := GetNodeByID_storePut_self s n
    have hval : ValidateNodeIdentifier { id := n.id, path := "", tableName := "" } = true := by
      simp [ValidateNodeIdentifier, hne]
    have hres : resolveNodeReq (InsertNode s n) { id := n.id, path := "", tableName := "" }
        = some (n, "primary") := by
      simp only [resolveNodeReq]
      rw [if_pos hne, hget]
      simp
    refine ⟨{ nodes := bDel (InsertNode s n).nodes n.id,
              idxParentId := sDel (InsertNode s n).idxParentId (n.parentId ++ "|" ++ n.id),
              idxPath := bDel (InsertNode s n).idxPath n.path,
              idxParentPath := sDel (InsertNode s n).idxParentPath
                (n.parentPath ++ "|" ++ n.id) }, ?_, ?_⟩
    · simp only [FsDeleteNode, hval, Bool.not_true, Bool.false_eq_true, if_false, hres]
      rw [if_neg hroot]
      simp only [DbDeleteNode]
      have hbget : bGet (InsertNode s n).nodes n.id = some n := hget
      rw [hbget]
    · show bGet (bDel (InsertNode s n).nodes n.id) n.id = none
      exact bGet_bDel_self (InsertNode s n).nodes n.id

/-- C10 witness: deleting the root of a fresh store fails with the root
rejection, and a freshly inserted folder is deleted and then NotFound. -/
theorem C10_root_protected_nonroot_deleted_witness :
    FsDeleteNode (initStore ["s1"]) { id := "root", path := "", tableName := "" }
        = .error "cannot delete root node"
      ∧ ∃ s2, FsDeleteNode (InsertNode (initStore ["s1"]) folderChild)
            { id := folderChild.id, path := "", tableName := "" } = .ok s2
          ∧ GetNodeByID s2 folderChild.id = none :=
  ⟨(C10_root_protected_nonroot_deleted (initStore ["s1"])
      { id := "root", path := "", tableName := "" } (rootNodeFor ["s1"]) "primary"
      folderChild).1 (by decide) (by decide) (by decide),
   (C10_root_protected_nonroot_deleted (initStore ["s1"])
      { id := "root", path := "", tableName := "" } (rootNodeFor ["s1"]) "primary"
      folderChild).2 (by decide) (by decide)⟩
